import Mathlib

/-!
Verification of the IBC store-path codec
(src/ibc-core/ics24-host/types/src/path.rs).

The file embeds the Rust source shallowly: the Path enum and its payload
structs become Lean structures and inductives, the derive_more Display
templates become the toStr functions, and FromStr with its family of
recognizer functions becomes from_str over the list of components obtained
by splitting on a slash.  Rust's panicking slice index components[1] in
parse_client_paths is modelled by an outer Option layer: an outer none is a
panic, some none is a recognizer yielding no match.

The leaf identifier types (ClientId, ConnectionId, PortId, ChannelId,
Sequence) live in the identifiers module, which is not among the sources;
they are modelled from the spec as noted on their definitions.
-/

set_option maxHeartbeats 1000000

namespace IbcPath

/-- Splitting a character list at every occurrence of a separator character,
as Rust str::split does: the result has one more element than the number of
separator occurrences, and empty segments are kept. -/
def splitChar (c : Char) : List Char → List (List Char)
  | [] => [[]]
  | x :: xs =>
    match splitChar c xs with
    | [] => [[]]
    | r :: rs => if x = c then [] :: (r :: rs) else (x :: r) :: rs

/-- Joining segments with a separator character; inverse of splitChar on
separator-free segments. -/
def joinChar (c : Char) : List (List Char) → List Char
  | [] => []
  | [a] => a
  | a :: b :: t => a ++ c :: joinChar c (b :: t)

/-- Rust s.split(c).collect::<Vec<&str>>(). -/
def rustSplit (c : Char) (s : String) : List String :=
  (splitChar c s.data).map String.mk

/-- The string made of the given segments joined by a separator; the shape of
the derive_more Display templates of the source. -/
def joinStr (c : Char) (l : List String) : String :=
  String.mk (joinChar c (l.map String.data))

/-- Value of a list of decimal digit characters, accumulated left to right. -/
def decDigitsVal (acc : Nat) (l : List Char) : Nat :=
  l.foldl (fun a ch => a * 10 + (ch.toNat - 48)) acc

/-- Rust str::parse::<u64>(): an optional leading plus sign, then one or more
ASCII digits, rejecting an empty digit string and any value of 2^64 or more. -/
def rustParseU64 (s : String) : Option Nat :=
  let t := match s.data with
    | [] => []
    | c :: rest => if c = '+' then rest else c :: rest
  if t.isEmpty then none
  else if t.all (fun ch => ch.isDigit) then
    if decDigitsVal 0 t < 2 ^ 64 then some (decDigitsVal 0 t) else none
  else none

/-- Decimal digit characters of n, most significant first; a fuel-indexed
copy of the usual div-mod loop (fuel n+1 always suffices), mirroring the
decimal Display of u64. -/
def natDecAux : Nat → Nat → List Char → List Char
  | 0, _, acc => acc
  | fuel + 1, n, acc =>
    let d := Nat.digitChar (n % 10)
    let m := n / 10
    if m = 0 then d :: acc else natDecAux fuel m (d :: acc)

/-- Decimal rendering of a u64 value. -/
def natDec (n : Nat) : String := String.mk (natDecAux (n + 1) n [])

/-- Modelled from the spec: the leaf identifier types are external to the
codec, which only requires a parse operation and a canonical string form,
with the precondition that no canonical identifier string contains a slash.
The model carries the canonical string itself and lets parse accept exactly
the slash-free strings. -/
structure ClientId where
  value : String
deriving DecidableEq

/-- Modelled from the spec: parse of the external ClientId type; accepts
exactly the slash-free canonical strings. -/
def ClientId.from_str (s : String) : Option ClientId :=
  if '/' ∈ s.data then none else some ⟨s⟩

/-- Modelled from the spec: external connection identifier, as ClientId. -/
structure ConnectionId where
  value : String
deriving DecidableEq

/-- Modelled from the spec: parse of the external ConnectionId type. -/
def ConnectionId.from_str (s : String) : Option ConnectionId :=
  if '/' ∈ s.data then none else some ⟨s⟩

/-- Modelled from the spec: external port identifier, as ClientId. -/
structure PortId where
  value : String
deriving DecidableEq

/-- Modelled from the spec: parse of the external PortId type. -/
def PortId.from_str (s : String) : Option PortId :=
  if '/' ∈ s.data then none else some ⟨s⟩

/-- Modelled from the spec: external channel identifier, as ClientId. -/
structure ChannelId where
  value : String
deriving DecidableEq

/-- Modelled from the spec: parse of the external ChannelId type. -/
def ChannelId.from_str (s : String) : Option ChannelId :=
  if '/' ∈ s.data then none else some ⟨s⟩

/-- Modelled from the spec: Sequence is an external numeric identifier, a
u64 with a plain decimal textual form. -/
structure Sequence where
  value : Nat
deriving DecidableEq

/-- Modelled from the spec: parse of the external Sequence type, plain
decimal over u64. -/
def Sequence.from_str (s : String) : Option Sequence :=
  if s.data ≠ [] ∧ s.data.all (fun ch => ch.isDigit) ∧ decDigitsVal 0 s.data < 2 ^ 64 then
    some ⟨decDigitsVal 0 s.data⟩
  else none

/-- Modelled from the spec: the canonical string of a Sequence. -/
def Sequence.toStr (s : Sequence) : String := natDec s.value

structure NextClientSequencePath where
deriving DecidableEq

structure NextConnectionSequencePath where
deriving DecidableEq

structure NextChannelSequencePath where
deriving DecidableEq

structure ClientStatePath where
  clientId : ClientId
deriving DecidableEq

structure ClientConsensusStatePath where
  client_id : ClientId
  revision_number : Nat
  revision_height : Nat
deriving DecidableEq

structure ClientUpdateTimePath where
  client_id : ClientId
  revision_number : Nat
  revision_height : Nat
deriving DecidableEq

structure ClientUpdateHeightPath where
  client_id : ClientId
  revision_number : Nat
  revision_height : Nat
deriving DecidableEq

structure ClientConnectionPath where
  clientId : ClientId
deriving DecidableEq

structure ConnectionPath where
  connectionId : ConnectionId
deriving DecidableEq

structure PortPath where
  portId : PortId
deriving DecidableEq

structure ChannelEndPath where
  portId : PortId
  channelId : ChannelId
deriving DecidableEq

structure SeqSendPath where
  portId : PortId
  channelId : ChannelId
deriving DecidableEq

structure SeqRecvPath where
  portId : PortId
  channelId : ChannelId
deriving DecidableEq

structure SeqAckPath where
  portId : PortId
  channelId : ChannelId
deriving DecidableEq

structure CommitmentPath where
  port_id : PortId
  channel_id : ChannelId
  sequence : Sequence
deriving DecidableEq

structure AckPath where
  port_id : PortId
  channel_id : ChannelId
  sequence : Sequence
deriving DecidableEq

structure ReceiptPath where
  port_id : PortId
  channel_id : ChannelId
  sequence : Sequence
deriving DecidableEq

/-- Paths that are specific for client upgrades. -/
inductive UpgradeClientPath where
  | UpgradedClientState (height : Nat)
  | UpgradedClientConsensusState (height : Nat)
deriving DecidableEq

/-- Sub-paths which are not part of the specification, but are still useful
to represent for parsing purposes. -/
inductive SubPath where
  | Channels (c : ChannelId)
  | Sequences (s : Sequence)
deriving DecidableEq

/-- The Path enum abstracts out the different sub-paths. -/
inductive Path where
  | NextClientSequence (p : NextClientSequencePath)
  | NextConnectionSequence (p : NextConnectionSequencePath)
  | NextChannelSequence (p : NextChannelSequencePath)
  | ClientState (p : ClientStatePath)
  | ClientConsensusState (p : ClientConsensusStatePath)
  | ClientUpdateTime (p : ClientUpdateTimePath)
  | ClientUpdateHeight (p : ClientUpdateHeightPath)
  | ClientConnection (p : ClientConnectionPath)
  | Connection (p : ConnectionPath)
  | Ports (p : PortPath)
  | ChannelEnd (p : ChannelEndPath)
  | SeqSend (p : SeqSendPath)
  | SeqRecv (p : SeqRecvPath)
  | SeqAck (p : SeqAckPath)
  | Commitment (p : CommitmentPath)
  | Ack (p : AckPath)
  | Receipt (p : ReceiptPath)
  | UpgradeClient (p : UpgradeClientPath)
deriving DecidableEq

/-- Display of ClientStatePath: clients/{_0}/clientState. -/
def ClientStatePath.toStr (p : ClientStatePath) : String :=
  joinStr '/' ["clients", p.clientId.value, "clientState"]

/-- The dash-joined two-part height segment {revision_number}-{revision_height}. -/
def heightSeg (revision_number revision_height : Nat) : String :=
  joinStr '-' [natDec revision_number, natDec revision_height]

/-- Display of ClientConsensusStatePath:
clients/{client_id}/consensusStates/{revision_number}-{revision_height}. -/
def ClientConsensusStatePath.toStr (p : ClientConsensusStatePath) : String :=
  joinStr '/' ["clients", p.client_id.value, "consensusStates",
    heightSeg p.revision_number p.revision_height]

/-- Display of ClientUpdateTimePath:
clients/{client_id}/consensusStates/{revision_number}-{revision_height}/processedTime. -/
def ClientUpdateTimePath.toStr (p : ClientUpdateTimePath) : String :=
  joinStr '/' ["clients", p.client_id.value, "consensusStates",
    heightSeg p.revision_number p.revision_height, "processedTime"]

/-- Display of ClientUpdateHeightPath:
clients/{client_id}/consensusStates/{revision_number}-{revision_height}/processedHeight. -/
def ClientUpdateHeightPath.toStr (p : ClientUpdateHeightPath) : String :=
  joinStr '/' ["clients", p.client_id.value, "consensusStates",
    heightSeg p.revision_number p.revision_height, "processedHeight"]

/-- Display of ClientConnectionPath: clients/{_0}/connections. -/
def ClientConnectionPath.toStr (p : ClientConnectionPath) : String :=
  joinStr '/' ["clients", p.clientId.value, "connections"]

/-- Display of ConnectionPath: connections/{_0}. -/
def ConnectionPath.toStr (p : ConnectionPath) : String :=
  joinStr '/' ["connections", p.connectionId.value]

/-- Display of PortPath: ports/{_0}. -/
def PortPath.toStr (p : PortPath) : String :=
  joinStr '/' ["ports", p.portId.value]

/-- Display of ChannelEndPath: channelEnds/ports/{_0}/channels/{_1}. -/
def ChannelEndPath.toStr (p : ChannelEndPath) : String :=
  joinStr '/' ["channelEnds", "ports", p.portId.value, "channels", p.channelId.value]

/-- Display of SeqSendPath: nextSequenceSend/ports/{_0}/channels/{_1}. -/
def SeqSendPath.toStr (p : SeqSendPath) : String :=
  joinStr '/' ["nextSequenceSend", "ports", p.portId.value, "channels", p.channelId.value]

/-- Display of SeqRecvPath: nextSequenceRecv/ports/{_0}/channels/{_1}. -/
def SeqRecvPath.toStr (p : SeqRecvPath) : String :=
  joinStr '/' ["nextSequenceRecv", "ports", p.portId.value, "channels", p.channelId.value]

/-- Display of SeqAckPath: nextSequenceAck/ports/{_0}/channels/{_1}. -/
def SeqAckPath.toStr (p : SeqAckPath) : String :=
  joinStr '/' ["nextSequenceAck", "ports", p.portId.value, "channels", p.channelId.value]

/-- Display of CommitmentPath:
commitments/ports/{port_id}/channels/{channel_id}/sequences/{sequence}. -/
def CommitmentPath.toStr (p : CommitmentPath) : String :=
  joinStr '/' ["commitments", "ports", p.port_id.value, "channels", p.channel_id.value,
    "sequences", p.sequence.toStr]

/-- Display of AckPath:
acks/ports/{port_id}/channels/{channel_id}/sequences/{sequence}. -/
def AckPath.toStr (p : AckPath) : String :=
  joinStr '/' ["acks", "ports", p.port_id.value, "channels", p.channel_id.value,
    "sequences", p.sequence.toStr]

/-- Display of ReceiptPath:
receipts/ports/{port_id}/channels/{channel_id}/sequences/{sequence}. -/
def ReceiptPath.toStr (p : ReceiptPath) : String :=
  joinStr '/' ["receipts", "ports", p.port_id.value, "channels", p.channel_id.value,
    "sequences", p.sequence.toStr]

/-- Display of UpgradeClientPath: upgradedIBCState/{_0}/upgradedClient and
upgradedIBCState/{_0}/upgradedConsState. -/
def UpgradeClientPath.toStr : UpgradeClientPath → String
  | .UpgradedClientState h => joinStr '/' ["upgradedIBCState", natDec h, "upgradedClient"]
  | .UpgradedClientConsensusState h => joinStr '/' ["upgradedIBCState", natDec h, "upgradedConsState"]

/-- Display of Path, delegating to each variant (derive_more Display on the
enum delegates to the payload Display). -/
def Path.toStr : Path → String
  | .NextClientSequence _ => "nextClientSequence"
  | .NextConnectionSequence _ => "nextConnectionSequence"
  | .NextChannelSequence _ => "nextChannelSequence"
  | .ClientState p => p.toStr
  | .ClientConsensusState p => p.toStr
  | .ClientUpdateTime p => p.toStr
  | .ClientUpdateHeight p => p.toStr
  | .ClientConnection p => p.toStr
  | .Connection p => p.toStr
  | .Ports p => p.toStr
  | .ChannelEnd p => p.toStr
  | .SeqSend p => p.toStr
  | .SeqRecv p => p.toStr
  | .SeqAck p => p.toStr
  | .Commitment p => p.toStr
  | .Ack p => p.toStr
  | .Receipt p => p.toStr
  | .UpgradeClient p => p.toStr

/-- Indication if the path is provable. -/
def Path.is_provable : Path → Bool
  | .ClientConnection _ => false
  | .Ports _ => false
  | _ => true

inductive PathError where
  | ParseFailure (path : String)
deriving DecidableEq

def parse_next_sequence (components : List String) : Option Path :=
  if components.length ≠ 1 then none
  else
    match components.head? with
    | some "nextClientSequence" => some (.NextClientSequence ⟨⟩)
    | some "nextConnectionSequence" => some (.NextConnectionSequence ⟨⟩)
    | some "nextChannelSequence" => some (.NextChannelSequence ⟨⟩)
    | _ => none

/-- The part of parse_client_paths after the read of components[1]; total. -/
def parse_client_paths_rest (components : List String) (second : String) : Option Path :=
  match ClientId.from_str second with
  | none => none
  | some client_id =>
    if components.length = 3 then
      match components[2]? with
      | some "clientState" => some (.ClientState ⟨client_id⟩)
      | some "connections" => some (.ClientConnection ⟨client_id⟩)
      | _ => none
    else if components.length = 4 ∨ components.length = 5 then
      match components[2]? with
      | some "consensusStates" =>
        match components[3]? with
        | none => none
        | some hseg =>
          let epoch_height := rustSplit '-' hseg
          if epoch_height.length ≠ 2 then none
          else
            match epoch_height[0]?, epoch_height[1]? with
            | some rn, some rh =>
              match rustParseU64 rn with
              | none => none
              | some revision_number =>
                match rustParseU64 rh with
                | none => none
                | some revision_height =>
                  if components.length = 4 then
                    some (.ClientConsensusState ⟨client_id, revision_number, revision_height⟩)
                  else
                    match components[4]? with
                    | some "processedTime" =>
                      some (.ClientUpdateTime ⟨client_id, revision_number, revision_height⟩)
                    | some "processedHeight" =>
                      some (.ClientUpdateHeight ⟨client_id, revision_number, revision_height⟩)
                    | _ => none
            | _, _ => none
      | _ => none
    else none

/-- parse_client_paths.  The outer Option is the effect of the unchecked
slice index components[1] in the source: an outer none means the call
panics with an index out of bounds. -/
def parse_client_paths (components : List String) : Option (Option Path) :=
  match components.head? with
  | none => some none
  | some first =>
    if first = "clients" then
      match components[1]? with
      | none => none
      | some second => some (parse_client_paths_rest components second)
    else some none

def parse_connections (components : List String) : Option Path :=
  if components.length ≠ 2 then none
  else
    match components.head? with
    | none => none
    | some first =>
      if first ≠ "connections" then none
      else
        match components.getLast? with
        | none => none
        | some cid =>
          match ConnectionId.from_str cid with
          | none => none
          | some connection_id => some (.Connection ⟨connection_id⟩)

def parse_ports (components : List String) : Option Path :=
  if components.length ≠ 2 then none
  else
    match components.head? with
    | none => none
    | some first =>
      if first ≠ "ports" then none
      else
        match components.getLast? with
        | none => none
        | some pid =>
          match PortId.from_str pid with
          | none => none
          | some port_id => some (.Ports ⟨port_id⟩)

def parse_channels (components : List String) : Option SubPath :=
  if components.length ≠ 2 then none
  else
    match components.head? with
    | none => none
    | some first =>
      if first ≠ "channels" then none
      else
        match components.getLast? with
        | none => none
        | some cid =>
          match ChannelId.from_str cid with
          | none => none
          | some channel_id => some (SubPath.Channels channel_id)

def parse_sequences (components : List String) : Option SubPath :=
  if components.length ≠ 2 then none
  else
    match components.head? with
    | none => none
    | some first =>
      if first ≠ "sequences" then none
      else
        match components.getLast? with
        | none => none
        | some sn =>
          match Sequence.from_str sn with
          | none => none
          | some seq => some (SubPath.Sequences seq)

def parse_channel_ends (components : List String) : Option Path :=
  if components.length ≠ 5 then none
  else
    match components.head? with
    | none => none
    | some first =>
      if first ≠ "channelEnds" then none
      else
        match parse_ports ((components.drop 1).take 2) with
        | some (.Ports pp) =>
          match parse_channels ((components.drop 3).take 2) with
          | some (SubPath.Channels channel_id) => some (.ChannelEnd ⟨pp.portId, channel_id⟩)
          | _ => none
        | _ => none

def parse_seqs (components : List String) : Option Path :=
  if components.length ≠ 5 then none
  else
    match components.head? with
    | none => none
    | some first =>
      match parse_ports ((components.drop 1).take 2) with
      | some (.Ports pp) =>
        match parse_channels ((components.drop 3).take 2) with
        | some (SubPath.Channels channel_id) =>
          match first with
          | "nextSequenceSend" => some (.SeqSend ⟨pp.portId, channel_id⟩)
          | "nextSequenceRecv" => some (.SeqRecv ⟨pp.portId, channel_id⟩)
          | "nextSequenceAck" => some (.SeqAck ⟨pp.portId, channel_id⟩)
          | _ => none
        | _ => none
      | _ => none

def parse_commitments (components : List String) : Option Path :=
  if components.length ≠ 7 then none
  else
    match components.head? with
    | none => none
    | some first =>
      if first ≠ "commitments" then none
      else
        match parse_ports ((components.drop 1).take 2) with
        | some (.Ports pp) =>
          match parse_channels ((components.drop 3).take 2) with
          | some (SubPath.Channels channel_id) =>
            match parse_sequences (components.drop 5) with
            | some (SubPath.Sequences sequence) =>
              some (.Commitment ⟨pp.portId, channel_id, sequence⟩)
            | _ => none
          | _ => none
        | _ => none

def parse_acks (components : List String) : Option Path :=
  if components.length ≠ 7 then none
  else
    match components.head? with
    | none => none
    | some first =>
      if first ≠ "acks" then none
      else
        match parse_ports ((components.drop 1).take 2) with
        | some (.Ports pp) =>
          match parse_channels ((components.drop 3).take 2) with
          | some (SubPath.Channels channel_id) =>
            match parse_sequences (components.drop 5) with
            | some (SubPath.Sequences sequence) =>
              some (.Ack ⟨pp.portId, channel_id, sequence⟩)
            | _ => none
          | _ => none
        | _ => none

def parse_receipts (components : List String) : Option Path :=
  if components.length ≠ 7 then none
  else
    match components.head? with
    | none => none
    | some first =>
      if first ≠ "receipts" then none
      else
        match parse_ports ((components.drop 1).take 2) with
        | some (.Ports pp) =>
          match parse_channels ((components.drop 3).take 2) with
          | some (SubPath.Channels channel_id) =>
            match parse_sequences (components.drop 5) with
            | some (SubPath.Sequences sequence) =>
              some (.Receipt ⟨pp.portId, channel_id, sequence⟩)
            | _ => none
          | _ => none
        | _ => none

def parse_upgrades (components : List String) : Option Path :=
  if components.length ≠ 3 then none
  else
    match components.head? with
    | none => none
    | some first =>
      if first ≠ "upgradedIBCState" then none
      else
        match components.getLast? with
        | none => none
        | some last =>
          match components[1]? with
          | none => none
          | some mid =>
            match rustParseU64 mid with
            | none => none
            | some height =>
              match last with
              | "upgradedClient" => some (.UpgradeClient (.UpgradedClientState height))
              | "upgradedConsState" => some (.UpgradeClient (.UpgradedClientConsensusState height))
              | _ => none

/-- The ten family recognizers in the fallback order of from_str; the nine
total ones are lifted into the panic-aware type. -/
def recList : List (List String → Option (Option Path)) :=
  [fun cs => some (parse_next_sequence cs),
   parse_client_paths,
   fun cs => some (parse_connections cs),
   fun cs => some (parse_ports cs),
   fun cs => some (parse_channel_ends cs),
   fun cs => some (parse_seqs cs),
   fun cs => some (parse_commitments cs),
   fun cs => some (parse_acks cs),
   fun cs => some (parse_receipts cs),
   fun cs => some (parse_upgrades cs)]

/-- The or_else chain of from_str over a list of recognizers: first match
wins, a panic aborts, exhaustion is a typed failure. -/
def runChain : List (List String → Option (Option Path)) → List String → Option (Option Path)
  | [], _ => some none
  | f :: fs, cs =>
    match f cs with
    | none => none
    | some (some p) => some (some p)
    | some none => runChain fs cs

def fromComponents (components : List String) : Option (Option Path) :=
  runChain recList components

/-- FromStr for Path: split on slash, try the recognizers in order, wrap
exhaustion into ParseFailure carrying the input verbatim.  The outer Option
is the panic effect inherited from parse_client_paths. -/
def Path.from_str (s : String) : Option (Except PathError Path) :=
  match fromComponents (rustSplit '/' s) with
  | none => none
  | some (some p) => some (Except.ok p)
  | some none => some (Except.error (PathError.ParseFailure s))

/-- from_str with the recognizers tried in an arbitrary given order. -/
def decodeWith (l : List (List String → Option (Option Path))) (s : String) :
    Option (Except PathError Path) :=
  match runChain l (rustSplit '/' s) with
  | none => none
  | some (some p) => some (Except.ok p)
  | some none => some (Except.error (PathError.ParseFailure s))

/-- The family recognizer at a given position of the fallback order. -/
def recAt : Nat → List String → Option (Option Path)
  | 0 => fun cs => some (parse_next_sequence cs)
  | 1 => parse_client_paths
  | 2 => fun cs => some (parse_connections cs)
  | 3 => fun cs => some (parse_ports cs)
  | 4 => fun cs => some (parse_channel_ends cs)
  | 5 => fun cs => some (parse_seqs cs)
  | 6 => fun cs => some (parse_commitments cs)
  | 7 => fun cs => some (parse_acks cs)
  | 8 => fun cs => some (parse_receipts cs)
  | _ => fun cs => some (parse_upgrades cs)

/-- The index of the only family whose first-segment literal check can
succeed on the given components. -/
def famKey (cs : List String) : Option Nat :=
  match cs.head? with
  | none => none
  | some h =>
    if h = "nextClientSequence" ∨ h = "nextConnectionSequence" ∨ h = "nextChannelSequence" then
      some 0
    else if h = "clients" then some 1
    else if h = "connections" then some 2
    else if h = "ports" then some 3
    else if h = "channelEnds" then some 4
    else if h = "nextSequenceSend" ∨ h = "nextSequenceRecv" ∨ h = "nextSequenceAck" then some 5
    else if h = "commitments" then some 6
    else if h = "acks" then some 7
    else if h = "receipts" then some 8
    else if h = "upgradedIBCState" then some 9
    else none

/-- Constructibility of a Path value: every leaf identifier is a valid
canonical identifier string (slash-free, per the modelled identifier types)
and every numeric payload fits in a u64. -/
def validPath : Path → Bool
  | .NextClientSequence _ => true
  | .NextConnectionSequence _ => true
  | .NextChannelSequence _ => true
  | .ClientState p => decide ('/' ∉ p.clientId.value.data)
  | .ClientConsensusState p =>
      decide ('/' ∉ p.client_id.value.data) && decide (p.revision_number < 2 ^ 64) &&
        decide (p.revision_height < 2 ^ 64)
  | .ClientUpdateTime p =>
      decide ('/' ∉ p.client_id.value.data) && decide (p.revision_number < 2 ^ 64) &&
        decide (p.revision_height < 2 ^ 64)
  | .ClientUpdateHeight p =>
      decide ('/' ∉ p.client_id.value.data) && decide (p.revision_number < 2 ^ 64) &&
        decide (p.revision_height < 2 ^ 64)
  | .ClientConnection p => decide ('/' ∉ p.clientId.value.data)
  | .Connection p => decide ('/' ∉ p.connectionId.value.data)
  | .Ports p => decide ('/' ∉ p.portId.value.data)
  | .ChannelEnd p => decide ('/' ∉ p.portId.value.data) && decide ('/' ∉ p.channelId.value.data)
  | .SeqSend p => decide ('/' ∉ p.portId.value.data) && decide ('/' ∉ p.channelId.value.data)
  | .SeqRecv p => decide ('/' ∉ p.portId.value.data) && decide ('/' ∉ p.channelId.value.data)
  | .SeqAck p => decide ('/' ∉ p.portId.value.data) && decide ('/' ∉ p.channelId.value.data)
  | .Commitment p =>
      decide ('/' ∉ p.port_id.value.data) && decide ('/' ∉ p.channel_id.value.data) &&
        decide (p.sequence.value < 2 ^ 64)
  | .Ack p =>
      decide ('/' ∉ p.port_id.value.data) && decide ('/' ∉ p.channel_id.value.data) &&
        decide (p.sequence.value < 2 ^ 64)
  | .Receipt p =>
      decide ('/' ∉ p.port_id.value.data) && decide ('/' ∉ p.channel_id.value.data) &&
        decide (p.sequence.value < 2 ^ 64)
  | .UpgradeClient (.UpgradedClientState h) => decide (h < 2 ^ 64)
  | .UpgradeClient (.UpgradedClientConsensusState h) => decide (h < 2 ^ 64)

/-! Lemmas on splitting and joining. -/

theorem splitChar_ne_nil (c : Char) (l : List Char) : splitChar c l ≠ [] := by
  induction l with
  | nil => simp [splitChar]
  | cons x xs ih =>
    obtain ⟨r, rs, h⟩ : ∃ r rs, splitChar c xs = r :: rs := by
      cases hs : splitChar c xs with
      | nil => exact absurd hs ih
      | cons r rs => exact ⟨r, rs, rfl⟩
    simp only [splitChar, h]
    split <;> simp

theorem splitChar_no_sep (c : Char) (l : List Char) (h : c ∉ l) : splitChar c l = [l] := by
  induction l with
  | nil => rfl
  | cons x xs ih =>
    have hx : x ≠ c := fun e => h (e ▸ List.mem_cons_self x xs)
    have hxs : c ∉ xs := fun m => h (List.mem_cons_of_mem _ m)
    simp only [splitChar, ih hxs]
    simp [hx]

theorem splitChar_append (c : Char) (a m : List Char) (h : c ∉ a) :
    splitChar c (a ++ c :: m) = a :: splitChar c m := by
  induction a with
  | nil =>
    simp only [List.nil_append, splitChar]
    cases hs : splitChar c m with
    | nil => exact absurd hs (splitChar_ne_nil c m)
    | cons r rs => simp
  | cons x xs ih =>
    have hx : x ≠ c := fun e => h (e ▸ List.mem_cons_self x xs)
    have hxs : c ∉ xs := fun m2 => h (List.mem_cons_of_mem _ m2)
    have step : splitChar c ((x :: xs) ++ c :: m) =
        match splitChar c (xs ++ c :: m) with
        | [] => [[]]
        | r :: rs => if x = c then [] :: r :: rs else (x :: r) :: rs := rfl
    rw [step, ih hxs]
    simp [hx]

theorem splitChar_joinChar (c : Char) (l : List (List Char)) (hne : l ≠ [])
    (h : ∀ s ∈ l, c ∉ s) : splitChar c (joinChar c l) = l := by
  induction l with
  | nil => cases hne rfl
  | cons a t ih =>
    cases t with
    | nil => simpa [joinChar] using splitChar_no_sep c a (h a (by simp))
    | cons b t2 =>
      have hj : joinChar c (a :: b :: t2) = a ++ c :: joinChar c (b :: t2) := rfl
      rw [hj, splitChar_append c a _ (h a (by simp))]
      rw [ih (by simp) (fun s hs => h s (List.mem_cons_of_mem _ hs))]

theorem rustSplit_joinStr (c : Char) (l : List String) (hne : l ≠ [])
    (h : ∀ s ∈ l, c ∉ s.data) : rustSplit c (joinStr c l) = l := by
  unfold rustSplit joinStr
  have hd : (String.mk (joinChar c (l.map String.data))).data = joinChar c (l.map String.data) := rfl
  rw [hd, splitChar_joinChar c (l.map String.data) (by simpa using hne)
    (by intro d hd2; obtain ⟨s, hs, rfl⟩ := List.mem_map.mp hd2; exact h s hs)]
  rw [List.map_map]
  have : (String.mk ∘ String.data) = id := funext (fun s => rfl)
  rw [this, List.map_id]

/-! Lemmas on decimal rendering and parsing. -/

theorem decDigitsVal_append (a : Nat) (l1 l2 : List Char) :
    decDigitsVal a (l1 ++ l2) = decDigitsVal (decDigitsVal a l1) l2 :=
  List.foldl_append _ _ _ _

theorem decDigitsVal_shift (a : Nat) (l : List Char) :
    decDigitsVal a l = a * 10 ^ l.length + decDigitsVal 0 l := by
  induction l generalizing a with
  | nil => simp [decDigitsVal]
  | cons ch l ih =>
    show decDigitsVal (a * 10 + (ch.toNat - 48)) l =
      a * 10 ^ (l.length + 1) + decDigitsVal (0 * 10 + (ch.toNat - 48)) l
    rw [ih (a * 10 + (ch.toNat - 48)), ih (0 * 10 + (ch.toNat - 48))]
    ring

theorem digitChar_toNat (d : Nat) (h : d < 10) : (Nat.digitChar d).toNat = 48 + d := by
  interval_cases d <;> rfl

theorem digitChar_isDigit (d : Nat) (h : d < 10) : (Nat.digitChar d).isDigit = true := by
  interval_cases d <;> rfl

theorem natDecAux_append (fuel : Nat) : ∀ (n : Nat) (acc : List Char),
    natDecAux fuel n acc = natDecAux fuel n [] ++ acc := by
  induction fuel with
  | zero => intro n acc; rfl
  | succ fuel ih =>
    intro n acc
    simp only [natDecAux]
    by_cases h : n / 10 = 0
    · rw [if_pos h, if_pos h]
      rfl
    · rw [if_neg h, if_neg h]
      rw [ih (n / 10) (Nat.digitChar (n % 10) :: acc), ih (n / 10) [Nat.digitChar (n % 10)]]
      simp

theorem natDecAux_val (fuel : Nat) : ∀ n, n < 10 ^ fuel →
    decDigitsVal 0 (natDecAux fuel n []) = n := by
  induction fuel with
  | zero =>
    intro n h
    interval_cases n
    rfl
  | succ fuel ih =>
    intro n h
    have hmod : n % 10 < 10 := Nat.mod_lt _ (by norm_num)
    simp only [natDecAux]
    by_cases h0 : n / 10 = 0
    · have hn : n < 10 := by omega
      rw [if_pos h0]
      simp [decDigitsVal, digitChar_toNat (n % 10) hmod]
      omega
    · rw [if_neg h0]
      rw [natDecAux_append fuel (n / 10) [Nat.digitChar (n % 10)]]
      rw [decDigitsVal_append]
      have hdiv : n / 10 < 10 ^ fuel := by
        rw [Nat.div_lt_iff_lt_mul (by norm_num : 0 < 10)]
        calc n < 10 ^ (fuel + 1) := h
        _ = 10 ^ fuel * 10 := by ring
      rw [ih (n / 10) hdiv]
      simp [decDigitsVal, digitChar_toNat (n % 10) hmod]
      omega

theorem natDecAux_digits (fuel : Nat) : ∀ n acc, (∀ ch ∈ acc, ch.isDigit = true) →
    ∀ ch ∈ natDecAux fuel n acc, ch.isDigit = true := by
  induction fuel with
  | zero => intro n acc hacc; simpa [natDecAux] using hacc
  | succ fuel ih =>
    intro n acc hacc ch hch
    have hmod : n % 10 < 10 := Nat.mod_lt _ (by norm_num)
    simp only [natDecAux] at hch
    by_cases h0 : n / 10 = 0
    · rw [if_pos h0] at hch
      rcases List.mem_cons.mp hch with e | hm
      · exact e ▸ digitChar_isDigit (n % 10) hmod
      · exact hacc ch hm
    · rw [if_neg h0] at hch
      refine ih (n / 10) (Nat.digitChar (n % 10) :: acc) ?_ ch hch
      intro c hc
      rcases List.mem_cons.mp hc with e | hm
      · exact e ▸ digitChar_isDigit (n % 10) hmod
      · exact hacc c hm

theorem natDec_all_digits (n : Nat) : ∀ ch ∈ (natDec n).data, ch.isDigit = true := by
  intro ch hch
  exact natDecAux_digits (n + 1) n [] (by intro c hc; cases hc) ch hch

theorem natDec_ne_nil (n : Nat) : (natDec n).data ≠ [] := by
  show natDecAux (n + 1) n [] ≠ []
  simp only [natDecAux]
  by_cases h0 : n / 10 = 0
  · rw [if_pos h0]
    simp
  · rw [if_neg h0]
    rw [natDecAux_append]
    simp

theorem isDigit_ne_special (ch : Char) (h : ch.isDigit = true) :
    ch ≠ '/' ∧ ch ≠ '-' ∧ ch ≠ '+' := by
  refine ⟨fun e => ?_, fun e => ?_, fun e => ?_⟩ <;> subst e <;> exact absurd h (by decide)

theorem natDec_no_slash (n : Nat) : '/' ∉ (natDec n).data := by
  intro hm
  exact (isDigit_ne_special _ (natDec_all_digits n _ hm)).1 rfl

theorem natDec_no_dash (n : Nat) : '-' ∉ (natDec n).data := by
  intro hm
  exact (isDigit_ne_special _ (natDec_all_digits n _ hm)).2.1 rfl

theorem natDec_val (n : Nat) : decDigitsVal 0 (natDec n).data = n := by
  have hself : n < 10 ^ (n + 1) :=
    lt_of_lt_of_le (Nat.lt_pow_self (by norm_num) n)
      (Nat.pow_le_pow_right (by norm_num) (by omega))
  exact natDecAux_val (n + 1) n hself

theorem rustParseU64_natDec (n : Nat) (h : n < 2 ^ 64) : rustParseU64 (natDec n) = some n := by
  unfold rustParseU64
  cases hx : (natDec n).data with
  | nil => exact absurd hx (natDec_ne_nil n)
  | cons c rest =>
    have hc : c.isDigit = true := natDec_all_digits n c (by rw [hx]; exact List.mem_cons_self c rest)
    have hcp : c ≠ '+' := (isDigit_ne_special c hc).2.2
    have hall : (c :: rest).all (fun ch => ch.isDigit) = true := by
      rw [List.all_eq_true]
      intro ch hm
      exact natDec_all_digits n ch (by rw [hx]; exact hm)
    have hv : decDigitsVal 0 (c :: rest) = n := by rw [← hx]; exact natDec_val n
    simp [hx, if_neg hcp, hall, hv]
    omega

theorem sequence_from_str_natDec (n : Nat) (h : n < 2 ^ 64) :
    Sequence.from_str (natDec n) = some ⟨n⟩ := by
  unfold Sequence.from_str
  have hall : (natDec n).data.all (fun ch => ch.isDigit) = true := by
    rw [List.all_eq_true]
    exact fun ch hm => natDec_all_digits n ch hm
  rw [if_pos ⟨natDec_ne_nil n, hall, by rw [natDec_val]; exact h⟩, natDec_val]

theorem rustSplit_heightSeg (a b : Nat) :
    rustSplit '-' (heightSeg a b) = [natDec a, natDec b] := by
  refine rustSplit_joinStr '-' [natDec a, natDec b] (by simp) ?_
  intro s hs
  rcases List.mem_cons.mp hs with e | hs2
  · exact e ▸ natDec_no_dash a
  · rcases List.mem_cons.mp hs2 with e | h3
    · exact e ▸ natDec_no_dash b
    · cases h3

theorem heightSeg_no_slash (a b : Nat) : '/' ∉ (heightSeg a b).data := by
  intro hm
  have : (heightSeg a b).data = (natDec a).data ++ '-' :: (natDec b).data := rfl
  rw [this] at hm
  rcases List.mem_append.mp hm with h1 | h2
  · exact natDec_no_slash a h1
  · rcases List.mem_cons.mp h2 with e | h3
    · cases e
    · exact natDec_no_slash b h3

/-! Round trip: decoding the canonical encoding of a constructible path. -/

theorem from_str_toStr (p : Path) (hv : validPath p = true) :
    Path.from_str (Path.toStr p) = some (Except.ok p) := by
  cases p with
  | NextClientSequence q => cases q; rfl
  | NextConnectionSequence q => cases q; rfl
  | NextChannelSequence q => cases q; rfl
  | ClientState q =>
    obtain ⟨⟨c⟩⟩ := q
    simp only [validPath, decide_eq_true_eq] at hv
    have hsegs : rustSplit '/' (joinStr '/' ["clients", c, "clientState"]) =
        ["clients", c, "clientState"] := by
      refine rustSplit_joinStr '/' _ (by simp) ?_
      intro s hs
      simp only [List.mem_cons] at hs
      rcases hs with rfl | rfl | rfl | hs
      · decide
      · exact hv
      · decide
      · cases hs
    show Path.from_str (joinStr '/' ["clients", c, "clientState"]) = _
    unfold Path.from_str fromComponents
    rw [hsegs]
    simp [recList, runChain, parse_next_sequence, parse_client_paths, parse_client_paths_rest,
      ClientId.from_str, hv]
  | ClientConsensusState q =>
    obtain ⟨⟨c⟩, n, m⟩ := q
    simp only [validPath, Bool.and_eq_true, decide_eq_true_eq] at hv
    obtain ⟨⟨h, hn⟩, hm⟩ := hv
    have hsegs : rustSplit '/' (joinStr '/' ["clients", c, "consensusStates", heightSeg n m]) =
        ["clients", c, "consensusStates", heightSeg n m] := by
      refine rustSplit_joinStr '/' _ (by simp) ?_
      intro s hs
      simp only [List.mem_cons] at hs
      rcases hs with rfl | rfl | rfl | rfl | hs
      · decide
      · exact h
      · decide
      · exact heightSeg_no_slash n m
      · cases hs
    show Path.from_str (joinStr '/' ["clients", c, "consensusStates", heightSeg n m]) = _
    unfold Path.from_str fromComponents
    rw [hsegs]
    simp [recList, runChain, parse_next_sequence, parse_client_paths, parse_client_paths_rest,
      ClientId.from_str, h, rustSplit_heightSeg, rustParseU64_natDec n hn,
      rustParseU64_natDec m hm]
  | ClientUpdateTime q =>
    obtain ⟨⟨c⟩, n, m⟩ := q
    simp only [validPath, Bool.and_eq_true, decide_eq_true_eq] at hv
    obtain ⟨⟨h, hn⟩, hm⟩ := hv
    have hsegs : rustSplit '/'
        (joinStr '/' ["clients", c, "consensusStates", heightSeg n m, "processedTime"]) =
        ["clients", c, "consensusStates", heightSeg n m, "processedTime"] := by
      refine rustSplit_joinStr '/' _ (by simp) ?_
      intro s hs
      simp only [List.mem_cons] at hs
      rcases hs with rfl | rfl | rfl | rfl | rfl | hs
      · decide
      · exact h
      · decide
      · exact heightSeg_no_slash n m
      · decide
      · cases hs
    show Path.from_str
      (joinStr '/' ["clients", c, "consensusStates", heightSeg n m, "processedTime"]) = _
    unfold Path.from_str fromComponents
    rw [hsegs]
    simp [recList, runChain, parse_next_sequence, parse_client_paths, parse_client_paths_rest,
      ClientId.from_str, h, rustSplit_heightSeg, rustParseU64_natDec n hn,
      rustParseU64_natDec m hm]
  | ClientUpdateHeight q =>
    obtain ⟨⟨c⟩, n, m⟩ := q
    simp only [validPath, Bool.and_eq_true, decide_eq_true_eq] at hv
    obtain ⟨⟨h, hn⟩, hm⟩ := hv
    have hsegs : rustSplit '/'
        (joinStr '/' ["clients", c, "consensusStates", heightSeg n m, "processedHeight"]) =
        ["clients", c, "consensusStates", heightSeg n m, "processedHeight"] := by
      refine rustSplit_joinStr '/' _ (by simp) ?_
      intro s hs
      simp only [List.mem_cons] at hs
      rcases hs with rfl | rfl | rfl | rfl | rfl | hs
      · decide
      · exact h
      · decide
      · exact heightSeg_no_slash n m
      · decide
      · cases hs
    show Path.from_str
      (joinStr '/' ["clients", c, "consensusStates", heightSeg n m, "processedHeight"]) = _
    unfold Path.from_str fromComponents
    rw [hsegs]
    simp [recList, runChain, parse_next_sequence, parse_client_paths, parse_client_paths_rest,
      ClientId.from_str, h, rustSplit_heightSeg, rustParseU64_natDec n hn,
      rustParseU64_natDec m hm]
  | ClientConnection q =>
    obtain ⟨⟨c⟩⟩ := q
    simp only [validPath, decide_eq_true_eq] at hv
    have hsegs : rustSplit '/' (joinStr '/' ["clients", c, "connections"]) =
        ["clients", c, "connections"] := by
      refine rustSplit_joinStr '/' _ (by simp) ?_
      intro s hs
      simp only [List.mem_cons] at hs
      rcases hs with rfl | rfl | rfl | hs
      · decide
      · exact hv
      · decide
      · cases hs
    show Path.from_str (joinStr '/' ["clients", c, "connections"]) = _
    unfold Path.from_str fromComponents
    rw [hsegs]
    simp [recList, runChain, parse_next_sequence, parse_client_paths, parse_client_paths_rest,
      ClientId.from_str, hv]
  | Connection q =>
    obtain ⟨⟨c⟩⟩ := q
    simp only [validPath, decide_eq_true_eq] at hv
    have hsegs : rustSplit '/' (joinStr '/' ["connections", c]) = ["connections", c] := by
      refine rustSplit_joinStr '/' _ (by simp) ?_
      intro s hs
      simp only [List.mem_cons] at hs
      rcases hs with rfl | rfl | hs
      · decide
      · exact hv
      · cases hs
    show Path.from_str (joinStr '/' ["connections", c]) = _
    unfold Path.from_str fromComponents
    rw [hsegs]
    simp [recList, runChain, parse_next_sequence, parse_client_paths, parse_connections,
      ConnectionId.from_str, hv]
  | Ports q =>
    obtain ⟨⟨c⟩⟩ := q
    simp only [validPath, decide_eq_true_eq] at hv
    have hsegs : rustSplit '/' (joinStr '/' ["ports", c]) = ["ports", c] := by
      refine rustSplit_joinStr '/' _ (by simp) ?_
      intro s hs
      simp only [List.mem_cons] at hs
      rcases hs with rfl | rfl | hs
      · decide
      · exact hv
      · cases hs
    show Path.from_str (joinStr '/' ["ports", c]) = _
    unfold Path.from_str fromComponents
    rw [hsegs]
    simp [recList, runChain, parse_next_sequence, parse_client_paths, parse_connections,
      parse_ports, PortId.from_str, hv]
  | ChannelEnd q =>
    obtain ⟨⟨pt⟩, ⟨ch⟩⟩ := q
    simp only [validPath, Bool.and_eq_true, decide_eq_true_eq] at hv
    obtain ⟨hp, hc⟩ := hv
    have hsegs : rustSplit '/' (joinStr '/' ["channelEnds", "ports", pt, "channels", ch]) =
        ["channelEnds", "ports", pt, "channels", ch] := by
      refine rustSplit_joinStr '/' _ (by simp) ?_
      intro s hs
      simp only [List.mem_cons] at hs
      rcases hs with rfl | rfl | rfl | rfl | rfl | hs
      · decide
      · decide
      · exact hp
      · decide
      · exact hc
      · cases hs
    show Path.from_str (joinStr '/' ["channelEnds", "ports", pt, "channels", ch]) = _
    unfold Path.from_str fromComponents
    rw [hsegs]
    simp [recList, runChain, parse_next_sequence, parse_client_paths, parse_connections,
      parse_ports, parse_channels, parse_channel_ends, PortId.from_str, ChannelId.from_str,
      hp, hc]
  | SeqSend q =>
    obtain ⟨⟨pt⟩, ⟨ch⟩⟩ := q
    simp only [validPath, Bool.and_eq_true, decide_eq_true_eq] at hv
    obtain ⟨hp, hc⟩ := hv
    have hsegs : rustSplit '/' (joinStr '/' ["nextSequenceSend", "ports", pt, "channels", ch]) =
        ["nextSequenceSend", "ports", pt, "channels", ch] := by
      refine rustSplit_joinStr '/' _ (by simp) ?_
      intro s hs
      simp only [List.mem_cons] at hs
      rcases hs with rfl | rfl | rfl | rfl | rfl | hs
      · decide
      · decide
      · exact hp
      · decide
      · exact hc
      · cases hs
    show Path.from_str (joinStr '/' ["nextSequenceSend", "ports", pt, "channels", ch]) = _
    unfold Path.from_str fromComponents
    rw [hsegs]
    simp [recList, runChain, parse_next_sequence, parse_client_paths, parse_connections,
      parse_ports, parse_channels, parse_channel_ends, parse_seqs, PortId.from_str,
      ChannelId.from_str, hp, hc]
  | SeqRecv q =>
    obtain ⟨⟨pt⟩, ⟨ch⟩⟩ := q
    simp only [validPath, Bool.and_eq_true, decide_eq_true_eq] at hv
    obtain ⟨hp, hc⟩ := hv
    have hsegs : rustSplit '/' (joinStr '/' ["nextSequenceRecv", "ports", pt, "channels", ch]) =
        ["nextSequenceRecv", "ports", pt, "channels", ch] := by
      refine rustSplit_joinStr '/' _ (by simp) ?_
      intro s hs
      simp only [List.mem_cons] at hs
      rcases hs with rfl | rfl | rfl | rfl | rfl | hs
      · decide
      · decide
      · exact hp
      · decide
      · exact hc
      · cases hs
    show Path.from_str (joinStr '/' ["nextSequenceRecv", "ports", pt, "channels", ch]) = _
    unfold Path.from_str fromComponents
    rw [hsegs]
    simp [recList, runChain, parse_next_sequence, parse_client_paths, parse_connections,
      parse_ports, parse_channels, parse_channel_ends, parse_seqs, PortId.from_str,
      ChannelId.from_str, hp, hc]
  | SeqAck q =>
    obtain ⟨⟨pt⟩, ⟨ch⟩⟩ := q
    simp only [validPath, Bool.and_eq_true, decide_eq_true_eq] at hv
    obtain ⟨hp, hc⟩ := hv
    have hsegs : rustSplit '/' (joinStr '/' ["nextSequenceAck", "ports", pt, "channels", ch]) =
        ["nextSequenceAck", "ports", pt, "channels", ch] := by
      refine rustSplit_joinStr '/' _ (by simp) ?_
      intro s hs
      simp only [List.mem_cons] at hs
      rcases hs with rfl | rfl | rfl | rfl | rfl | hs
      · decide
      · decide
      · exact hp
      · decide
      · exact hc
      · cases hs
    show Path.from_str (joinStr '/' ["nextSequenceAck", "ports", pt, "channels", ch]) = _
    unfold Path.from_str fromComponents
    rw [hsegs]
    simp [recList, runChain, parse_next_sequence, parse_client_paths, parse_connections,
      parse_ports, parse_channels, parse_channel_ends, parse_seqs, PortId.from_str,
      ChannelId.from_str, hp, hc]
  | Commitment q =>
    obtain ⟨⟨pt⟩, ⟨ch⟩, ⟨n⟩⟩ := q
    simp only [validPath, Bool.and_eq_true, decide_eq_true_eq] at hv
    obtain ⟨⟨hp, hc⟩, hn⟩ := hv
    have hsegs : rustSplit '/'
        (joinStr '/' ["commitments", "ports", pt, "channels", ch, "sequences", natDec n]) =
        ["commitments", "ports", pt, "channels", ch, "sequences", natDec n] := by
      refine rustSplit_joinStr '/' _ (by simp) ?_
      intro s hs
      simp only [List.mem_cons] at hs
      rcases hs with rfl | rfl | rfl | rfl | rfl | rfl | rfl | hs
      · decide
      · decide
      · exact hp
      · decide
      · exact hc
      · decide
      · exact natDec_no_slash n
      · cases hs
    show Path.from_str
      (joinStr '/' ["commitments", "ports", pt, "channels", ch, "sequences", natDec n]) = _
    unfold Path.from_str fromComponents
    rw [hsegs]
    simp [recList, runChain, parse_next_sequence, parse_client_paths, parse_connections,
      parse_ports, parse_channels, parse_sequences, parse_channel_ends, parse_seqs,
      parse_commitments, PortId.from_str, ChannelId.from_str, hp, hc,
      sequence_from_str_natDec n hn]
  | Ack q =>
    obtain ⟨⟨pt⟩, ⟨ch⟩, ⟨n⟩⟩ := q
    simp only [validPath, Bool.and_eq_true, decide_eq_true_eq] at hv
    obtain ⟨⟨hp, hc⟩, hn⟩ := hv
    have hsegs : rustSplit '/'
        (joinStr '/' ["acks", "ports", pt, "channels", ch, "sequences", natDec n]) =
        ["acks", "ports", pt, "channels", ch, "sequences", natDec n] := by
      refine rustSplit_joinStr '/' _ (by simp) ?_
      intro s hs
      simp only [List.mem_cons] at hs
      rcases hs with rfl | rfl | rfl | rfl | rfl | rfl | rfl | hs
      · decide
      · decide
      · exact hp
      · decide
      · exact hc
      · decide
      · exact natDec_no_slash n
      · cases hs
    show Path.from_str
      (joinStr '/' ["acks", "ports", pt, "channels", ch, "sequences", natDec n]) = _
    unfold Path.from_str fromComponents
    rw [hsegs]
    simp [recList, runChain, parse_next_sequence, parse_client_paths, parse_connections,
      parse_ports, parse_channels, parse_sequences, parse_channel_ends, parse_seqs,
      parse_commitments, parse_acks, PortId.from_str, ChannelId.from_str, hp, hc,
      sequence_from_str_natDec n hn]
  | Receipt q =>
    obtain ⟨⟨pt⟩, ⟨ch⟩, ⟨n⟩⟩ := q
    simp only [validPath, Bool.and_eq_true, decide_eq_true_eq] at hv
    obtain ⟨⟨hp, hc⟩, hn⟩ := hv
    have hsegs : rustSplit '/'
        (joinStr '/' ["receipts", "ports", pt, "channels", ch, "sequences", natDec n]) =
        ["receipts", "ports", pt, "channels", ch, "sequences", natDec n] := by
      refine rustSplit_joinStr '/' _ (by simp) ?_
      intro s hs
      simp only [List.mem_cons] at hs
      rcases hs with rfl | rfl | rfl | rfl | rfl | rfl | rfl | hs
      · decide
      · decide
      · exact hp
      · decide
      · exact hc
      · decide
      · exact natDec_no_slash n
      · cases hs
    show Path.from_str
      (joinStr '/' ["receipts", "ports", pt, "channels", ch, "sequences", natDec n]) = _
    unfold Path.from_str fromComponents
    rw [hsegs]
    simp [recList, runChain, parse_next_sequence, parse_client_paths, parse_connections,
      parse_ports, parse_channels, parse_sequences, parse_channel_ends, parse_seqs,
      parse_commitments, parse_acks, parse_receipts, PortId.from_str, ChannelId.from_str,
      hp, hc, sequence_from_str_natDec n hn]
  | UpgradeClient q =>
    cases q with
    | UpgradedClientState n =>
      simp only [validPath, decide_eq_true_eq] at hv
      have hsegs : rustSplit '/' (joinStr '/' ["upgradedIBCState", natDec n, "upgradedClient"]) =
          ["upgradedIBCState", natDec n, "upgradedClient"] := by
        refine rustSplit_joinStr '/' _ (by simp) ?_
        intro s hs
        simp only [List.mem_cons] at hs
        rcases hs with rfl | rfl | rfl | hs
        · decide
        · exact natDec_no_slash n
        · decide
        · cases hs
      show Path.from_str (joinStr '/' ["upgradedIBCState", natDec n, "upgradedClient"]) = _
      unfold Path.from_str fromComponents
      rw [hsegs]
      simp [recList, runChain, parse_next_sequence, parse_client_paths, parse_connections,
        parse_ports, parse_channel_ends, parse_seqs, parse_commitments, parse_acks,
        parse_receipts, parse_upgrades, rustParseU64_natDec n hv]
    | UpgradedClientConsensusState n =>
      simp only [validPath, decide_eq_true_eq] at hv
      have hsegs : rustSplit '/'
          (joinStr '/' ["upgradedIBCState", natDec n, "upgradedConsState"]) =
          ["upgradedIBCState", natDec n, "upgradedConsState"] := by
        refine rustSplit_joinStr '/' _ (by simp) ?_
        intro s hs
        simp only [List.mem_cons] at hs
        rcases hs with rfl | rfl | rfl | hs
        · decide
        · exact natDec_no_slash n
        · decide
        · cases hs
      show Path.from_str (joinStr '/' ["upgradedIBCState", natDec n, "upgradedConsState"]) = _
      unfold Path.from_str fromComponents
      rw [hsegs]
      simp [recList, runChain, parse_next_sequence, parse_client_paths, parse_connections,
        parse_ports, parse_channel_ends, parse_seqs, parse_commitments, parse_acks,
        parse_receipts, parse_upgrades, rustParseU64_natDec n hv]

/-! The claims. -/

/-- Claim C1: for every constructible Path value p (valid slash-free leaf
identifier strings, u64-sized numeric payloads), decoding the canonical
string produced by encode yields Ok p, that is
Path.from_str (Path.toStr p) = Ok p. -/
theorem claim_roundtrip (p : Path) (hv : validPath p = true) :
    Path.from_str (Path.toStr p) = some (Except.ok p) :=
  from_str_toStr p hv

theorem claim_roundtrip_witness :
    validPath (.ClientConsensusState ⟨⟨"07-tendermint-0"⟩, 15, 31⟩) = true ∧
    Path.from_str (Path.toStr (.ClientConsensusState ⟨⟨"07-tendermint-0"⟩, 15, 31⟩)) =
      some (Except.ok (.ClientConsensusState ⟨⟨"07-tendermint-0"⟩, 15, 31⟩)) :=
  ⟨by decide, claim_roundtrip (.ClientConsensusState ⟨⟨"07-tendermint-0"⟩, 15, 31⟩) (by decide)⟩

/-- Claim C2: the claim says decode is total and never panics, in particular on the
single-segment input clients; but the source indexes components[1] without a
length check in parse_client_paths, so decoding the string clients hits an
index out of bounds (modelled by the outer none) instead of returning the
typed ParseFailure result. -/
theorem claim_decode_panics_on_clients : Path.from_str "clients" = none := rfl

/-- Claim C3: encode is injective on constructible Path values: two distinct
values never render to the same canonical string. -/
theorem claim_encode_injective (p q : Path) (hp : validPath p = true)
    (hq : validPath q = true) (hne : p ≠ q) : Path.toStr p ≠ Path.toStr q := by
  intro he
  have h1 := from_str_toStr p hp
  have h2 := from_str_toStr q hq
  rw [he] at h1
  rw [h1] at h2
  simp only [Option.some.injEq, Except.ok.injEq] at h2
  exact hne h2

theorem claim_encode_injective_witness :
    validPath (.Ports ⟨⟨"transfer"⟩⟩) = true ∧
    validPath (.Connection ⟨⟨"connection-0"⟩⟩) = true ∧
    Path.Ports ⟨⟨"transfer"⟩⟩ ≠ Path.Connection ⟨⟨"connection-0"⟩⟩ ∧
    Path.toStr (.Ports ⟨⟨"transfer"⟩⟩) ≠ Path.toStr (.Connection ⟨⟨"connection-0"⟩⟩) :=
  ⟨by decide, by decide, by decide,
    claim_encode_injective (.Ports ⟨⟨"transfer"⟩⟩) (.Connection ⟨⟨"connection-0"⟩⟩)
      (by decide) (by decide) (by decide)⟩

/-- Claim C4: the three malformed inputs of the spec are rejected with a parse
failure: clients/clientType (wrong arity for the clients family),
channels/channel-0 and sequences/0 (sub-grammar literals standalone). -/
theorem claim_malformed_rejected :
    Path.from_str "clients/clientType" =
      some (Except.error (PathError.ParseFailure "clients/clientType")) ∧
    Path.from_str "channels/channel-0" =
      some (Except.error (PathError.ParseFailure "channels/channel-0")) ∧
    Path.from_str "sequences/0" =
      some (Except.error (PathError.ParseFailure "sequences/0")) :=
  ⟨rfl, rfl, rfl⟩

/-- Claim C5: two-part height parsing: the consensus-state path with height 15-31
decodes to the ClientConsensusState value with revision_number 15 and
revision_height 31; a height segment with any other dash count (15-31-7 or
15) fails, and each component must parse as an unsigned 64-bit integer
(non-numeric components and 2^64 are rejected while 2^64 - 1 is accepted). -/
theorem claim_two_part_height :
    Path.from_str "clients/07-tendermint-0/consensusStates/15-31" =
      some (Except.ok (.ClientConsensusState ⟨⟨"07-tendermint-0"⟩, 15, 31⟩)) ∧
    Path.from_str "clients/07-tendermint-0/consensusStates/15-31-7" =
      some (Except.error
        (PathError.ParseFailure "clients/07-tendermint-0/consensusStates/15-31-7")) ∧
    Path.from_str "clients/07-tendermint-0/consensusStates/15" =
      some (Except.error
        (PathError.ParseFailure "clients/07-tendermint-0/consensusStates/15")) ∧
    Path.from_str "clients/07-tendermint-0/consensusStates/15-abc" =
      some (Except.error
        (PathError.ParseFailure "clients/07-tendermint-0/consensusStates/15-abc")) ∧
    Path.from_str "clients/07-tendermint-0/consensusStates/18446744073709551616-0" =
      some (Except.error (PathError.ParseFailure
        "clients/07-tendermint-0/consensusStates/18446744073709551616-0")) ∧
    Path.from_str "clients/07-tendermint-0/consensusStates/18446744073709551615-0" =
      some (Except.ok
        (.ClientConsensusState ⟨⟨"07-tendermint-0"⟩, 18446744073709551615, 0⟩)) :=
  ⟨rfl, rfl, rfl, rfl, rfl, rfl⟩

/-- Claim C6: upgrade paths: upgradedIBCState/0/upgradedClient decodes to
UpgradedClientState 0 and upgradedIBCState/0/upgradedConsState decodes to
UpgradedClientConsensusState 0, while any three-segment input starting with
upgradedIBCState whose trailing literal is anything else decodes to a parse
failure. -/
theorem claim_upgrade_paths :
    Path.from_str "upgradedIBCState/0/upgradedClient" =
      some (Except.ok (.UpgradeClient (.UpgradedClientState 0))) ∧
    Path.from_str "upgradedIBCState/0/upgradedConsState" =
      some (Except.ok (.UpgradeClient (.UpgradedClientConsensusState 0))) ∧
    ∀ mid last : String, '/' ∉ mid.data → '/' ∉ last.data →
      last ≠ "upgradedClient" → last ≠ "upgradedConsState" →
      Path.from_str (joinStr '/' ["upgradedIBCState", mid, last]) =
        some (Except.error
          (PathError.ParseFailure (joinStr '/' ["upgradedIBCState", mid, last]))) := by
  refine ⟨rfl, rfl, ?_⟩
  intro mid last hm hl h1 h2
  have hsegs : rustSplit '/' (joinStr '/' ["upgradedIBCState", mid, last]) =
      ["upgradedIBCState", mid, last] := by
    refine rustSplit_joinStr '/' _ (by simp) ?_
    intro s hs
    simp only [List.mem_cons] at hs
    rcases hs with rfl | rfl | rfl | hs
    · decide
    · exact hm
    · exact hl
    · cases hs
  unfold Path.from_str fromComponents
  rw [hsegs]
  simp [recList, runChain, parse_next_sequence, parse_client_paths, parse_connections,
    parse_ports, parse_channel_ends, parse_seqs, parse_commitments, parse_acks,
    parse_receipts, parse_upgrades, h1, h2]
  cases rustParseU64 mid <;> rfl

theorem claim_upgrade_paths_witness :
    Path.from_str "upgradedIBCState/7/nope" =
      some (Except.error (PathError.ParseFailure "upgradedIBCState/7/nope")) :=
  claim_upgrade_paths.2.2 "7" "nope" (by decide) (by decide) (by decide) (by decide)

/-- Claim C7: is_provable returns false exactly on the ClientConnection and Ports
variants, independently of the payload; and the two decoded sample paths
have the expected provability. -/
theorem claim_provability :
    (∀ p : Path, Path.is_provable p = false ↔
      ((∃ x, p = .Ports x) ∨ (∃ x, p = .ClientConnection x))) ∧
    Path.from_str "ports/transfer" = some (Except.ok (.Ports ⟨⟨"transfer"⟩⟩)) ∧
    Path.is_provable (.Ports ⟨⟨"transfer"⟩⟩) = false ∧
    Path.from_str "connections/connection-0" =
      some (Except.ok (.Connection ⟨⟨"connection-0"⟩⟩)) ∧
    Path.is_provable (.Connection ⟨⟨"connection-0"⟩⟩) = true := by
  refine ⟨?_, rfl, rfl, rfl, rfl⟩
  intro p
  cases p <;> simp [Path.is_provable]

/-- Claim C8: whenever decode returns a typed failure, the error is the single
ParseFailure kind carrying the rejected input string verbatim. -/
theorem claim_error_payload (s : String) (e : PathError)
    (h : Path.from_str s = some (Except.error e)) : e = PathError.ParseFailure s := by
  unfold Path.from_str at h
  cases hc : fromComponents (rustSplit '/' s) with
  | none => rw [hc] at h; cases h
  | some o =>
    cases o with
    | none =>
      rw [hc] at h
      simp only [Option.some.injEq] at h
      cases h
      rfl
    | some p => rw [hc] at h; simp at h

theorem claim_error_payload_witness :
    PathError.ParseFailure "foo" = PathError.ParseFailure "foo" :=
  claim_error_payload "foo" (PathError.ParseFailure "foo") rfl

/-- Claim C10: decode accepts a non-canonical spelling of a numeric segment (a
leading plus sign, accepted by the u64 parser), so there is a string s in
the success domain of decode with encode (decode s) different from s, while
encode (decode s) still decodes to the same Path value. -/
theorem claim_noncanonical_numeric :
    Path.from_str "upgradedIBCState/+0/upgradedClient" =
      some (Except.ok (.UpgradeClient (.UpgradedClientState 0))) ∧
    Path.toStr (.UpgradeClient (.UpgradedClientState 0)) ≠ "upgradedIBCState/+0/upgradedClient" ∧
    Path.from_str (Path.toStr (.UpgradeClient (.UpgradedClientState 0))) =
      some (Except.ok (.UpgradeClient (.UpgradedClientState 0))) := by
  refine ⟨rfl, ?_, rfl⟩
  have he : Path.toStr (.UpgradeClient (.UpgradedClientState 0)) =
      "upgradedIBCState/0/upgradedClient" := rfl
  rw [he]
  decide

theorem parse_connections_hit (cs : List String) (p : Path)
    (h : parse_connections cs = some p) : cs.head? = some "connections" := by
  unfold parse_connections at h
  repeat' split at h <;> simp_all

theorem parse_next_sequence_hit (cs : List String) (p : Path)
    (h : parse_next_sequence cs = some p) :
    cs.head? = some "nextClientSequence" ∨ cs.head? = some "nextConnectionSequence" ∨
      cs.head? = some "nextChannelSequence" := by
  unfold parse_next_sequence at h
  repeat' split at h <;> simp_all

theorem parse_client_paths_hit (cs : List String) (p : Path)
    (h : parse_client_paths cs = some (some p)) : cs.head? = some "clients" := by
  unfold parse_client_paths at h
  cases hh : cs.head? with
  | none => rw [hh] at h; simp at h
  | some first =>
    rw [hh] at h
    by_cases hc : first = "clients"
    · rw [hc]
    · simp [hc] at h

theorem parse_seqs_hit (cs : List String) (p : Path)
    (h : parse_seqs cs = some p) :
    cs.head? = some "nextSequenceSend" ∨ cs.head? = some "nextSequenceRecv" ∨
      cs.head? = some "nextSequenceAck" := by
  unfold parse_seqs at h
  repeat' split at h <;> try simp_all

theorem parse_ports_hit (cs : List String) (p : Path)
    (h : parse_ports cs = some p) : cs.head? = some "ports" := by
  unfold parse_ports at h
  repeat' split at h <;> simp_all

theorem parse_channel_ends_hit (cs : List String) (p : Path)
    (h : parse_channel_ends cs = some p) : cs.head? = some "channelEnds" := by
  unfold parse_channel_ends at h
  repeat' split at h <;> simp_all

theorem parse_commitments_hit (cs : List String) (p : Path)
    (h : parse_commitments cs = some p) : cs.head? = some "commitments" := by
  unfold parse_commitments at h
  repeat' split at h <;> simp_all

theorem parse_acks_hit (cs : List String) (p : Path)
    (h : parse_acks cs = some p) : cs.head? = some "acks" := by
  unfold parse_acks at h
  repeat' split at h <;> simp_all

theorem parse_receipts_hit (cs : List String) (p : Path)
    (h : parse_receipts cs = some p) : cs.head? = some "receipts" := by
  unfold parse_receipts at h
  repeat' split at h <;> simp_all

theorem parse_upgrades_hit (cs : List String) (p : Path)
    (h : parse_upgrades cs = some p) : cs.head? = some "upgradedIBCState" := by
  unfold parse_upgrades at h
  repeat' split at h <;> simp_all

theorem hit_key (f : List String → Option (Option Path)) (hf : f ∈ recList)
    (cs : List String) (p : Path) (h : f cs = some (some p)) :
    ∃ k, famKey cs = some k ∧ f = recAt k := by
  simp only [recList, List.mem_cons, List.not_mem_nil, or_false] at hf
  rcases hf with rfl | rfl | rfl | rfl | rfl | rfl | rfl | rfl | rfl | rfl
  · have h2 : parse_next_sequence cs = some p := Option.some.inj h
    rcases parse_next_sequence_hit cs p h2 with hh | hh | hh <;>
      exact ⟨0, by simp [famKey, hh], rfl⟩
  · have hh := parse_client_paths_hit cs p h
    exact ⟨1, by simp [famKey, hh], rfl⟩
  · have hh := parse_connections_hit cs p (Option.some.inj h)
    exact ⟨2, by simp [famKey, hh], rfl⟩
  · have hh := parse_ports_hit cs p (Option.some.inj h)
    exact ⟨3, by simp [famKey, hh], rfl⟩
  · have hh := parse_channel_ends_hit cs p (Option.some.inj h)
    exact ⟨4, by simp [famKey, hh], rfl⟩
  · rcases parse_seqs_hit cs p (Option.some.inj h) with hh | hh | hh <;>
      exact ⟨5, by simp [famKey, hh], rfl⟩
  · have hh := parse_commitments_hit cs p (Option.some.inj h)
    exact ⟨6, by simp [famKey, hh], rfl⟩
  · have hh := parse_acks_hit cs p (Option.some.inj h)
    exact ⟨7, by simp [famKey, hh], rfl⟩
  · have hh := parse_receipts_hit cs p (Option.some.inj h)
    exact ⟨8, by simp [famKey, hh], rfl⟩
  · have hh := parse_upgrades_hit cs p (Option.some.inj h)
    exact ⟨9, by simp [famKey, hh], rfl⟩

theorem recognizers_disjoint (cs : List String) (f g : List String → Option (Option Path))
    (hf : f ∈ recList) (hg : g ∈ recList) (p q : Path)
    (hfp : f cs = some (some p)) (hgq : g cs = some (some q)) : f = g := by
  obtain ⟨k1, hk1, he1⟩ := hit_key f hf cs p hfp
  obtain ⟨k2, hk2, he2⟩ := hit_key g hg cs q hgq
  rw [hk1] at hk2
  rw [he1, he2, Option.some.inj hk2]

theorem parse_client_paths_panic (cs : List String)
    (h : parse_client_paths cs = none) : cs = ["clients"] := by
  unfold parse_client_paths at h
  cases cs with
  | nil => simp at h
  | cons a t =>
    simp only [List.head?] at h
    by_cases hc : a = "clients"
    · subst hc
      cases t with
      | nil => rfl
      | cons b t2 => simp at h
    · simp [hc] at h

theorem panic_only_clients (f : List String → Option (Option Path)) (hf : f ∈ recList)
    (cs : List String) (h : f cs = none) : cs = ["clients"] := by
  simp only [recList, List.mem_cons, List.not_mem_nil, or_false] at hf
  rcases hf with rfl | rfl | rfl | rfl | rfl | rfl | rfl | rfl | rfl | rfl
  · simp at h
  · exact parse_client_paths_panic cs h
  · simp at h
  · simp at h
  · simp at h
  · simp at h
  · simp at h
  · simp at h
  · simp at h
  · simp at h

theorem no_hit_on_clients (f : List String → Option (Option Path)) (hf : f ∈ recList)
    (p : Path) : f ["clients"] ≠ some (some p) := by
  simp only [recList, List.mem_cons, List.not_mem_nil, or_false] at hf
  intro hcon
  rcases hf with rfl | rfl | rfl | rfl | rfl | rfl | rfl | rfl | rfl | rfl
  · exact Option.noConfusion (Option.some.inj hcon)
  · exact Option.noConfusion hcon
  · exact Option.noConfusion (Option.some.inj hcon)
  · exact Option.noConfusion (Option.some.inj hcon)
  · exact Option.noConfusion (Option.some.inj hcon)
  · exact Option.noConfusion (Option.some.inj hcon)
  · exact Option.noConfusion (Option.some.inj hcon)
  · exact Option.noConfusion (Option.some.inj hcon)
  · exact Option.noConfusion (Option.some.inj hcon)
  · exact Option.noConfusion (Option.some.inj hcon)

theorem runChain_perm {l1 l2 : List (List String → Option (Option Path))}
    (hp : l1.Perm l2) :
    (∀ f ∈ l1, f ∈ recList) → ∀ cs, runChain l1 cs = runChain l2 cs := by
  induction hp with
  | nil => intro _ _; rfl
  | cons x hp2 ih =>
    intro hsub cs
    cases hx : x cs with
    | none => simp only [runChain, hx]
    | some o =>
      cases o with
      | none =>
        simp only [runChain, hx]
        exact ih (fun f hf => hsub f (List.mem_cons_of_mem _ hf)) cs
      | some p => simp only [runChain, hx]
  | swap a b l =>
    intro hsub cs
    have hbm : b ∈ recList := hsub b (List.mem_cons_self b _)
    have ham : a ∈ recList := hsub a (List.mem_cons_of_mem _ (List.mem_cons_self a _))
    cases hb : b cs with
    | none =>
      have hcl : cs = ["clients"] := panic_only_clients b hbm cs hb
      cases ha : a cs with
      | none => simp only [runChain, ha, hb]
      | some o =>
        cases o with
        | none => simp only [runChain, ha, hb]
        | some p => exact absurd (hcl ▸ ha) (no_hit_on_clients a ham p)
    | some o =>
      cases o with
      | none =>
        cases ha : a cs with
        | none => simp only [runChain, ha, hb]
        | some o2 =>
          cases o2 with
          | none => simp only [runChain, ha, hb]
          | some p => simp only [runChain, ha, hb]
      | some p =>
        cases ha : a cs with
        | none =>
          have hcl : cs = ["clients"] := panic_only_clients a ham cs ha
          exact absurd (hcl ▸ hb) (no_hit_on_clients b hbm p)
        | some o2 =>
          cases o2 with
          | none => simp only [runChain, ha, hb]
          | some q =>
            have hfg : b = a := recognizers_disjoint cs b a hbm ham p q hb ha
            subst hfg
            rfl
  | trans h1 h2 ih1 ih2 =>
    intro hsub cs
    rw [ih1 hsub cs, ih2 (fun f hf => hsub f (h1.mem_iff.mpr hf)) cs]

/-- Claim C9: order-independence of the recognizers: on any component list at most
one of the ten family recognizers returns a match, and consequently running
the fallback chain on any permutation of the canonical recognizer order
decodes every string exactly as from_str does. -/
theorem claim_order_independence :
    (∀ (cs : List String) (f g : List String → Option (Option Path)),
      f ∈ recList → g ∈ recList → ∀ p q : Path,
      f cs = some (some p) → g cs = some (some q) → f = g) ∧
    (∀ l, l.Perm recList → ∀ s, decodeWith l s = Path.from_str s) := by
  constructor
  · intro cs f g hf hg p q hfp hgq
    exact recognizers_disjoint cs f g hf hg p q hfp hgq
  · intro l hp s
    unfold decodeWith Path.from_str fromComponents
    rw [runChain_perm hp (fun f hf => hp.mem_iff.mp hf) (rustSplit '/' s)]

theorem claim_order_independence_witness :
    decodeWith recList.reverse "ports/transfer" = Path.from_str "ports/transfer" :=
  claim_order_independence.2 recList.reverse (List.reverse_perm recList) "ports/transfer"

end IbcPath
